import Mathlib

/-!
Verification of the k8flex alert-triage pipeline against its specification.

The Go sources are shallowly embedded as executable Lean functions:

* `Feedback`, `GetRelevantFeedback` — pkg/feedback/manager.go
* `Alert`, `processAlert`, `PendingFeedback` — internal/processor/alert.go
* `scanReactions`, `processPending`, `tickPending` — the reconciliation loop
  in internal/processor/alert.go (checkPendingReactions)
* `KBCase`, `storeCase`, `findSimilarQuery` — pkg/knowledge/store.go, where
  the SQL upsert and the vector similarity query are modelled as pure list
  operations over the table rows
* `cleanCategory`, `categorizePost` — response post-processing of
  CategorizeAlert in the Ollama provider
* `handleWebhook` — internal/handler/webhook.go

Go maps are modelled as association lists looked up with a default value,
time instants as natural-number seconds, and fallible external calls as
`Option`-valued oracles supplied in an environment record.
-/

namespace K8flex

/-! ## Basic data model -/

/-- Go map lookup: a missing key yields the zero value, here the empty
string (alert.Labels[k] semantics). -/
def lookupDefault (m : List (String × String)) (k : String) : String :=
  match m.lookup k with
  | some v => v
  | none => ""

/-- types.Alert: status, labels and the summary text map (the remaining
fields of the Go struct play no role in any claim). -/
structure Alert where
  status : String
  labels : List (String × String)
  annots : List (String × String)
deriving Repr, DecidableEq

/-- types.Feedback (pkg/types): one durable human judgment. Timestamps
are natural-number seconds. -/
structure Feedback where
  timestamp : Nat
  alertName : String
  category : String
  namespaceName : String
  summary : String
  analysis : String
  isCorrect : Bool
  slackThread : String
  labels : List (String × String)
deriving Repr, DecidableEq

/-! ## Feedback manager: GetRelevantFeedback (pkg/feedback/manager.go)

The Go code walks the store from the last index down (most-recent-first);
here the reversed store list is walked front to back.  The first pass
collects exact alertName matches, the second pass fills the remaining
slots with same-category records not already included, deduplicated by
timestamp identity. -/

/-- First pass of GetRelevantFeedback: collect records whose AlertName
equals the requested name, stopping once the accumulator reaches the
limit. The input list is the store in most-recent-first order. -/
def grfPassOne (alertName : String) (limit : Nat) :
    List Feedback → List Feedback → List Feedback
  | acc, [] => acc
  | acc, fb :: rest =>
    if limit ≤ acc.length then acc
    else if fb.alertName == alertName then
      grfPassOne alertName limit (acc ++ [fb]) rest
    else
      grfPassOne alertName limit acc rest

/-- Timestamp-identity membership test used for deduplication in the
second pass (the inner found loop of the Go code). -/
def containsTs (acc : List Feedback) (t : Nat) : Bool :=
  acc.any (fun r => r.timestamp == t)

/-- Second pass of GetRelevantFeedback: fill remaining slots with
same-category records whose AlertName differs, skipping records whose
timestamp is already present in the accumulator. -/
def grfPassTwo (category alertName : String) (limit : Nat) :
    List Feedback → List Feedback → List Feedback
  | acc, [] => acc
  | acc, fb :: rest =>
    if limit ≤ acc.length then acc
    else if fb.category == category && fb.alertName != alertName then
      if containsTs acc fb.timestamp then
        grfPassTwo category alertName limit acc rest
      else
        grfPassTwo category alertName limit (acc ++ [fb]) rest
    else
      grfPassTwo category alertName limit acc rest

/-- Manager.GetRelevantFeedback: two passes over the store in
most-recent-first order; the second runs only while under the limit. -/
def GetRelevantFeedback (store : List Feedback) (category alertName : String)
    (limit : Nat) : List Feedback :=
  let rev := store.reverse
  let relevant := grfPassOne alertName limit [] rev
  if relevant.length < limit then
    grfPassTwo category alertName limit relevant rev
  else
    relevant

/-! ## Pending feedback and the reaction reconciliation loop
(internal/processor/alert.go) -/

/-- PendingFeedback: an analysis waiting for a user reaction, keyed in
the registry by the analysis message timestamp. -/
structure PendingFeedback where
  alert : Alert
  category : String
  analysis : String
  threadTS : String
  analysisTS : String
  timestamp : Nat
deriving Repr, DecidableEq

/-- The positive reaction synonym test of checkPendingReactions. -/
def positiveReaction (r : String) : Bool :=
  r == "white_check_mark" || r == "coche_blanche" || r == "heavy_check_mark"

/-- The negative reaction synonym test of checkPendingReactions. -/
def negativeReaction (r : String) : Bool :=
  r == "x" || r == "cross" || r == "negative_squared_cross_mark"

/-- First-match scan of the reaction name list: the loop over reactions
in checkPendingReactions, breaking at the first positive or negative
synonym. -/
def scanReactions : List String → Option Bool
  | [] => none
  | r :: rest =>
    if positiveReaction r then some true
    else if negativeReaction r then some false
    else scanReactions rest

/-- knowledge.AlertCase: a row of the alert_cases table.  Embedding
components are rationals standing for the float vector. -/
structure AlertCase where
  id : String
  alertName : String
  severity : String
  category : String
  summary : String
  namespaceName : String
  podName : String
  containerName : String
  analysis : String
  debugInfo : String
  validated : Bool
  embedding : List Rat
  createdAt : Nat
  updatedAt : Nat
deriving Repr, DecidableEq

/-- knowledge.FromAlert: builds an AlertCase from an alert; every case
built this way is marked validated. -/
def FromAlert (alert : Alert) (category analysis debugInfo : String)
    (now : Nat) : AlertCase :=
  { id := ""
    alertName := lookupDefault alert.labels "alertname"
    severity := lookupDefault alert.labels "severity"
    category := category
    summary := lookupDefault alert.annots "summary"
    namespaceName := lookupDefault alert.labels "namespace"
    podName := lookupDefault alert.labels "pod"
    containerName := lookupDefault alert.labels "container"
    analysis := analysis
    debugInfo := debugInfo
    validated := true
    embedding := []
    createdAt := now
    updatedAt := now }

/-- External side effects performed by the processor, recorded as a
trace so that frame claims can be stated. -/
inductive Effect where
  | sendAlert
  | categorize
  | findSimilar (searchText : String)
  | gatherDebug (category : String)
  | getFeedback (category alertName : String) (limit : Nat)
  | streamAnalyze (debugInfo : String) (pastFeedback : List Feedback)
  | sendInThread (threadTS text : String)
  | updateMessage (ts text : String)
  | sendAnalysisFlat (text : String)
  | replyToThread (ts text : String)
  | record (fb : Feedback)
  | kbStore (c : AlertCase)
deriving Repr, DecidableEq

/-- The check-mark emoji used by the processor (U+2705). -/
def checkEmoji : String := String.singleton (Char.ofNat 0x2705)

/-- The cross emoji used by the processor (U+274C). -/
def crossEmoji : String := String.singleton (Char.ofNat 0x274C)

/-- The confirmation reply posted after a reaction is recorded. -/
def confirmText (isCorrect : Bool) : String :=
  "_Thank you! Your feedback (" ++ (if isCorrect then checkEmoji else crossEmoji)
    ++ ") has been recorded and will help improve future analyses._"

/-- The feedback record built by checkPendingReactions from a pending
entry and the detected reaction. -/
def mkReactionFeedback (now : Nat) (p : PendingFeedback) (isCorrect : Bool) :
    Feedback :=
  { timestamp := now
    alertName := lookupDefault p.alert.labels "alertname"
    category := p.category
    namespaceName := lookupDefault p.alert.labels "namespace"
    summary := lookupDefault p.alert.annots "summary"
    analysis := p.analysis
    isCorrect := isCorrect
    slackThread := p.threadTS
    labels := p.alert.labels }

/-- Environment of one reconciliation tick: the clock, whether a
knowledge base is configured, the reaction lookup oracle (none models a
Slack API error) and whether the feedback write succeeds. -/
structure TickEnv where
  now : Nat
  kbConfigured : Bool
  reactions : String → Option (List String)
  recordOk : Feedback → Bool

/-- Processing of one pending entry inside checkPendingReactions.
Returns the effects performed and whether the entry is deleted from the
registry.  Entries older than 24 hours are deleted silently; a reaction
lookup error keeps the entry; a matched reaction records feedback, and
on a successful write optionally stores a knowledge case and posts a
confirmation; the deletion after a match does not depend on the write
succeeding. -/
def processPending (env : TickEnv) (p : PendingFeedback) :
    List Effect × Bool :=
  if 24 * 3600 < env.now - p.timestamp then ([], true)
  else
    match env.reactions p.analysisTS with
    | none => ([], false)
    | some rs =>
      match scanReactions rs with
      | none => ([], false)
      | some b =>
        let fb := mkReactionFeedback env.now p b
        if env.recordOk fb then
          let kbEffects :=
            if b && env.kbConfigured then
              [Effect.kbStore (FromAlert p.alert p.category p.analysis "" env.now)]
            else []
          (Effect.record fb :: (kbEffects ++ [Effect.replyToThread p.threadTS (confirmText b)]),
            true)
        else
          ([Effect.record fb], true)

/-- One full reconciliation tick over the snapshot of pending entries:
the surviving entries and the concatenated effect trace. -/
def tickPending (env : TickEnv) : List PendingFeedback →
    List PendingFeedback × List Effect
  | [] => ([], [])
  | p :: rest =>
    let r := processPending env p
    let t := tickPending env rest
    ((if r.2 then t.1 else p :: t.1), r.1 ++ t.2)

/-! ## Knowledge base store (pkg/knowledge/store.go)

The alert_cases table is a list of rows; the SQL upsert and the
similarity query are modelled as list operations.  The pgvector cosine
distance operator is an external database function, taken here as an
arbitrary distance parameter. -/

/-- AlertCase.GetSearchText: the text whose embedding indexes a case. -/
def GetSearchText (c : AlertCase) : String :=
  c.alertName ++ " " ++ c.severity ++ " " ++ c.summary ++ " "
    ++ c.namespaceName ++ " " ++ c.analysis

/-- The ON CONFLICT (id) DO UPDATE SET clause: only category, analysis,
debug_info, validated, embedding and updated_at are replaced. -/
def upsertFields (r c : AlertCase) (emb : List Rat) : AlertCase :=
  { r with category := c.category, analysis := c.analysis,
           debugInfo := c.debugInfo, validated := c.validated,
           embedding := emb, updatedAt := c.updatedAt }

/-- The id under which Store persists a case: a fresh uuid when the id
field is empty, the given id otherwise. -/
def storeId (uuid : String) (c : AlertCase) : String :=
  if c.id == "" then uuid else c.id

/-- KnowledgeBase.Store: generate the embedding from GetSearchText,
insert the row, or on id conflict update the mutable columns. -/
def storeCase (embed : String → List Rat) (uuid : String)
    (table : List AlertCase) (c : AlertCase) : List AlertCase :=
  let emb := embed (GetSearchText c)
  let cid := storeId uuid c
  if table.any (fun r => r.id == cid) then
    table.map (fun r => if r.id == cid then upsertFields r c emb else r)
  else
    table ++ [{ c with id := cid, embedding := emb }]

/-- Insertion into a list sorted by the boolean relation le. -/
def insertLe {α : Type} (le : α → α → Bool) (x : α) : List α → List α
  | [] => [x]
  | y :: ys => if le x y then x :: y :: ys else y :: insertLe le x ys

/-- Insertion sort by the boolean relation le, modelling the ORDER BY
clause of the similarity query. -/
def sortLe {α : Type} (le : α → α → Bool) : List α → List α
  | [] => []
  | x :: xs => insertLe le x (sortLe le xs)

/-- The FindSimilar SQL query: keep validated rows whose similarity
(one minus the cosine distance to the query embedding) reaches the
threshold, order by ascending distance, limit to maxResults, and pair
each row with its similarity. -/
def findSimilarQuery (dist : List Rat → List Rat → Rat)
    (table : List AlertCase) (q : List Rat) (threshold : Rat)
    (maxResults : Nat) : List (AlertCase × Rat) :=
  let eligible := table.filter
    (fun r => r.validated && decide (threshold ≤ 1 - dist r.embedding q))
  let ordered := sortLe
    (fun a b => decide (dist a.embedding q ≤ dist b.embedding q)) eligible
  (ordered.take maxResults).map (fun r => (r, 1 - dist r.embedding q))

/-- KnowledgeBase state: the table, the embedding generator, the
database distance operator, and the threshold and result cap fixed at
construction time. -/
structure KnowledgeBase where
  table : List AlertCase
  embed : String → List Rat
  dist : List Rat → List Rat → Rat
  similarityThreshold : Rat
  maxSimilarCases : Nat

/-- KnowledgeBase.FindSimilar: embed the search text and run the
similarity query against the construction-time parameters. -/
def FindSimilar (kb : KnowledgeBase) (searchText : String) :
    List (AlertCase × Rat) :=
  findSimilarQuery kb.dist kb.table (kb.embed searchText)
    kb.similarityThreshold kb.maxSimilarCases

/-! ## Category post-processing (CategorizeAlert, Ollama provider)

Strings are handled as character lists so that every step reduces by
computation.  Go TrimSpace / ToLower are modelled character-wise. -/

/-- strings.TrimSpace on a character list. -/
def trimChars (s : List Char) : List Char :=
  ((s.dropWhile Char.isWhitespace).reverse.dropWhile Char.isWhitespace).reverse

/-- The eleven valid category labels of CategorizeAlert. -/
def validCategories : List (List Char) :=
  ["pod-crash".toList, "pod-restart".toList, "memory".toList, "cpu".toList,
   "disk".toList, "network".toList, "service".toList, "hpa".toList,
   "node".toList, "deployment".toList, "unknown".toList]

/-- CategorizeAlert response cleanup as the code performs it: trim the
whole response, lowercase, cut at the first newline and trim, cut at
the first colon and trim. -/
def cleanCategory (resp : List Char) : List Char :=
  let c0 := (trimChars resp).map Char.toLower
  let c1 := if c0.any (fun ch => ch == '\n')
    then trimChars (c0.takeWhile (fun ch => ch ≠ '\n')) else c0
  let c2 := if c1.any (fun ch => ch == ':')
    then trimChars (c1.takeWhile (fun ch => ch ≠ ':')) else c1
  c2

/-- CategorizeAlert validation: an unrecognized cleaned response is
coerced to unknown, with no error. -/
def categorizePost (resp : List Char) : List Char :=
  let c := cleanCategory resp
  if validCategories.contains c then c else "unknown".toList

/-- Modelled from the claim wording for comparison: lowercase first,
truncate at the first newline, truncate at the first colon, then trim
whitespace, in that order. -/
def specCleanCategory (resp : List Char) : List Char :=
  trimChars (((resp.map Char.toLower).takeWhile (fun ch => ch ≠ '\n')).takeWhile
    (fun ch => ch ≠ ':'))

/-- The claim wording of the post-processing, for refinement against
categorizePost. -/
def specCategorizePost (resp : List Char) : List Char :=
  let c := specCleanCategory resp
  if validCategories.contains c then c else "unknown".toList

/-! ## Webhook handler (internal/handler/webhook.go) -/

/-- The status filter of HandleWebhook: process if status is firing or
empty (default to firing). -/
def shouldProcess (a : Alert) : Bool :=
  a.status == "firing" || a.status == ""

/-- HandleWebhook after body read: on parse failure respond 400 and
process nothing; on success respond 200 immediately and hand exactly
the firing-or-empty alerts to ProcessAlert. -/
def handleWebhook (parse : Option (List Alert × String)) :
    Nat × List Alert :=
  match parse with
  | none => (400, [])
  | some (alerts, _) => (200, alerts.filter shouldProcess)

/-! ## ProcessAlert (internal/processor/alert.go lines 60-228)

External collaborators are oracles in an environment record; the
function returns the effect trace and the updated pending registry. -/

/-- Environment of one ProcessAlert run: Slack configuration, the
results of each external call, the streaming chunks and the clock. -/
structure ProcEnv where
  slackConfigured : Bool
  hasBotToken : Bool
  workspaceID : String
  channelID : String
  sendAlertRes : Option String
  categorizeRes : Option String
  kbConfigured : Bool
  findSimilarRes : Option (List (AlertCase × Rat))
  debugInfo : String
  feedbackLog : List Feedback
  chunks : List String
  streamErr : Option String
  sendSeq : Nat → Option String
  updateOk : Bool
  now : Nat

/-- strings.ReplaceAll(s, ".", "") used to build Slack deep links. -/
def removeDots (s : String) : String :=
  String.mk (s.toList.filter (fun c => c ≠ '.'))

/-- The Slack-link decoration of past feedback summaries (pure string
decoration, lines 117-128). -/
def enhanceFeedback (env : ProcEnv) (fbs : List Feedback) : List Feedback :=
  fbs.map (fun fb =>
    if fb.slackThread != "" && env.hasBotToken && env.workspaceID != "" then
      { fb with summary := fb.summary ++ " (See: https://" ++ env.workspaceID
          ++ ".slack.com/archives/" ++ env.channelID ++ "/p"
          ++ removeDots fb.slackThread ++ ")" }
    else fb)

/-- Truncation of an analysis excerpt to n characters with ellipsis. -/
def truncateTo (n : Nat) (s : String) : String :=
  if n < s.length then String.mk (s.toList.take n) ++ "..." else s

/-- Rendering of a similarity score as a percentage.  Go formats the
float with percent-dot-zero-f; here the rational is rounded to the
nearest integer, which abstracts the float formatting. -/
def renderPercent (sim : Rat) : String := toString (round (sim * 100))

/-- One numbered entry of the similar past cases section. -/
def renderSimilarCase (idx : Nat) (sc : AlertCase × Rat) : String :=
  "\n" ++ toString (idx + 1) ++ ". [" ++ renderPercent sc.2 ++ "% similar] "
    ++ sc.1.alertName ++ " - Category: " ++ sc.1.category
    ++ "\n   Previous Analysis: " ++ truncateTo 150 sc.1.analysis ++ "\n"

/-- The similar past cases section appended to the diagnostics blob:
top three cases, delimited header and usage instruction. -/
def renderSimilarCases (cases : List (AlertCase × Rat)) : String :=
  "\n\n=== SIMILAR PAST CASES (from Knowledge Base) ===\n"
    ++ String.join ((cases.take 3).mapIdx renderSimilarCase)
    ++ "\nUse these similar cases to inform your analysis if patterns match.\n"

/-- State of the streaming callback: accumulated text, the analysis
thread message timestamp (empty while no message exists), the chunk
count, how many in-thread sends happened, and the Slack effects. -/
structure StreamState where
  buf : String
  msgTS : String
  count : Nat
  sends : Nat
  effects : List Effect
deriving Repr

/-- Header of the in-progress streaming message (the U+1F504 icon of
the Go string literal). -/
def progressHeader : String :=
  String.singleton (Char.ofNat 0x1F504) ++ " *Analysis in progress...*\n\n"

/-- The streaming callback of ProcessAlert: append the chunk, and on
every tenth chunk create the threaded analysis message if none exists
(capturing its timestamp on success) or update it in place. -/
def chunkStep (env : ProcEnv) (threadTS : String) (s : StreamState)
    (chunk : String) : StreamState :=
  let buf := s.buf ++ chunk
  let count := s.count + 1
  if env.slackConfigured && threadTS != "" && count % 10 == 0 then
    if s.msgTS == "" then
      let eff := s.effects ++ [Effect.sendInThread threadTS (progressHeader ++ buf)]
      match env.sendSeq s.sends with
      | some ts =>
        { buf := buf, msgTS := ts, count := count, sends := s.sends + 1,
          effects := eff }
      | none =>
        { buf := buf, msgTS := s.msgTS, count := count, sends := s.sends + 1,
          effects := eff }
    else
      { buf := buf, msgTS := s.msgTS, count := count, sends := s.sends,
        effects := s.effects
          ++ [Effect.updateMessage s.msgTS (progressHeader ++ buf)] }
  else
    { s with buf := buf, count := count }

/-- Initial streaming state: empty buffer, no message, zero counts. -/
def initStream : StreamState := ⟨"", "", 0, 0, []⟩

/-- The whole streaming phase: fold the callback over the chunks. -/
def runStream (env : ProcEnv) (threadTS : String) : StreamState :=
  env.chunks.foldl (chunkStep env threadTS) initStream

/-- Header of the finalized analysis message. -/
def completeHeader : String := checkEmoji ++ " *Analysis Complete*\n\n"

/-- The feedback solicitation suffix appended at finalization. -/
def feedbackFooter : String :=
  "\n\n_" ++ String.singleton (Char.ofNat 0x1F4A1)
    ++ " Rate this analysis: React with " ++ checkEmoji
    ++ " if correct or " ++ crossEmoji
    ++ " if incorrect to help improve future debugging_"

/-- Go map assignment into the pending registry. -/
def registryInsert (reg : List (String × PendingFeedback)) (k : String)
    (v : PendingFeedback) : List (String × PendingFeedback) :=
  (k, v) :: reg.filter (fun e => e.1 ≠ k)

/-- Result of one ProcessAlert run. -/
structure ProcResult where
  effects : List Effect
  registry : List (String × PendingFeedback)
deriving Repr

/-- Finalization of the analysis message (the tail of ProcessAlert):
with a thread, update the streaming message in place or create one in
the thread when none exists, appending the feedback suffix, and
register the pending entry keyed by the analysis message timestamp
when one exists; without a thread send a flat message and register
nothing. -/
def finalizeAlert (env : ProcEnv) (reg : List (String × PendingFeedback))
    (alert : Alert) (category : String) (slackThreadTS : String)
    (st : StreamState) (analysis : String) :
    List Effect × List (String × PendingFeedback) :=
  if env.slackConfigured && slackThreadTS != "" then
    let finalText := completeHeader ++ analysis ++ feedbackFooter
    if st.msgTS != "" then
      ([Effect.updateMessage st.msgTS finalText],
       registryInsert reg st.msgTS
         ⟨alert, category, analysis, slackThreadTS, st.msgTS, env.now⟩)
    else
      match env.sendSeq st.sends with
      | some ts =>
        if ts != "" then
          ([Effect.sendInThread slackThreadTS finalText],
           registryInsert reg ts
             ⟨alert, category, analysis, slackThreadTS, ts, env.now⟩)
        else
          ([Effect.sendInThread slackThreadTS finalText], reg)
      | none =>
        ([Effect.sendInThread slackThreadTS finalText], reg)
  else if env.slackConfigured then
    ([Effect.sendAnalysisFlat (analysis ++ feedbackFooter)], reg)
  else
    ([], reg)

/-- The thread timestamp available after the initial alert post: the
posted message timestamp on success, empty on failure or when Slack is
not configured. -/
def procThreadTS (env : ProcEnv) : String :=
  if env.slackConfigured then
    match env.sendAlertRes with
    | some ts => ts
    | none => ""
  else ""

/-- The category used downstream: the classifier result, or unknown
when the classifier errored. -/
def procCategory (env : ProcEnv) : String :=
  match env.categorizeRes with
  | some c => c
  | none => "unknown"

/-- The similar cases list: empty when no knowledge base is configured
or the search errored. -/
def procSimilarCases (env : ProcEnv) : List (AlertCase × Rat) :=
  if env.kbConfigured then
    match env.findSimilarRes with
    | some cs => cs
    | none => []
  else []

/-- The final analysis text: the accumulated stream, or the error
rendering when the stream errored. -/
def procAnalysis (env : ProcEnv) (st : StreamState) : String :=
  match env.streamErr with
  | some e => "Error: " ++ e
  | none => st.buf

/-- The effects of ProcessAlert up to and including the streaming
phase: alert post, categorize, optional similarity search, diagnostics
gathering, feedback retrieval, the streaming call and its incremental
Slack updates. -/
def processAlertPre (env : ProcEnv) (alert : Alert) : List Effect :=
  let sendEffects := if env.slackConfigured then [Effect.sendAlert] else []
  let kbEffects :=
    if env.kbConfigured then
      [Effect.findSimilar (lookupDefault alert.labels "alertname" ++ " "
        ++ lookupDefault alert.labels "severity" ++ " "
        ++ lookupDefault alert.annots "summary")]
    else []
  let pastFeedback := enhanceFeedback env
    (GetRelevantFeedback env.feedbackLog (procCategory env)
      (lookupDefault alert.labels "alertname") 1)
  let debugInfo :=
    if 0 < (procSimilarCases env).length then
      env.debugInfo ++ renderSimilarCases (procSimilarCases env)
    else env.debugInfo
  sendEffects ++ [Effect.categorize] ++ kbEffects
    ++ [Effect.gatherDebug (procCategory env),
        Effect.getFeedback (procCategory env)
          (lookupDefault alert.labels "alertname") 1,
        Effect.streamAnalyze debugInfo pastFeedback]
    ++ (runStream env (procThreadTS env)).effects

/-- ProcessAlert: reject when the namespace label is empty; otherwise
post the alert, categorize (substituting unknown on error), search the
knowledge base when configured, gather diagnostics, fetch one past
feedback record, stream the analysis with incremental Slack updates,
finalize the message with the feedback suffix, and register a pending
entry keyed by the analysis message timestamp. -/
def processAlert (env : ProcEnv) (reg : List (String × PendingFeedback))
    (alert : Alert) : ProcResult :=
  if lookupDefault alert.labels "namespace" == "" then ⟨[], reg⟩
  else
    let st := runStream env (procThreadTS env)
    let finalization := finalizeAlert env reg alert (procCategory env)
      (procThreadTS env) st (procAnalysis env st)
    ⟨processAlertPre env alert ++ finalization.1, finalization.2⟩

/-- Environment of RecordManualFeedback. -/
structure ManualEnv where
  kbConfigured : Bool
  recordOk : Feedback → Bool
  now : Nat

/-- The feedback record built by RecordManualFeedback. -/
def mkManualFeedback (now : Nat) (alert : Alert)
    (category analysis slackThread : String) (isCorrect : Bool) : Feedback :=
  { timestamp := now
    alertName := lookupDefault alert.labels "alertname"
    category := category
    namespaceName := lookupDefault alert.labels "namespace"
    summary := lookupDefault alert.annots "summary"
    analysis := analysis
    isCorrect := isCorrect
    slackThread := slackThread
    labels := alert.labels }

/-- AlertProcessor.RecordManualFeedback: record the feedback; on write
failure return the error; on success store a knowledge case only when
the feedback is positive and a knowledge base is configured. -/
def RecordManualFeedback (env : ManualEnv) (alert : Alert)
    (category analysis slackThread : String) (isCorrect : Bool) :
    List Effect × Bool :=
  let fb := mkManualFeedback env.now alert category analysis slackThread isCorrect
  if env.recordOk fb then
    if isCorrect && env.kbConfigured then
      ([Effect.record fb, Effect.kbStore (FromAlert alert category analysis "" env.now)],
        true)
    else
      ([Effect.record fb], true)
  else
    ([Effect.record fb], false)

/-! ## Effect classification helpers -/

/-- Recognizes the threaded-message creation effect. -/
def isCreateEffect : Effect → Bool
  | Effect.sendInThread _ _ => true
  | _ => false

/-- Recognizes the in-place message update effect. -/
def isUpdateEffect : Effect → Bool
  | Effect.updateMessage _ _ => true
  | _ => false

/-- Recognizes a feedback store write. -/
def isRecordEffect : Effect → Bool
  | Effect.record _ => true
  | _ => false

/-- Recognizes a knowledge base similarity search. -/
def isFindSimilarEffect : Effect → Bool
  | Effect.findSimilar _ => true
  | _ => false

/-- Number of effects in a trace satisfying the predicate. -/
def countEffects (p : Effect → Bool) (es : List Effect) : Nat :=
  (es.filter p).length

/-! ## Concrete fixtures used by the witness theorems -/

/-- A well-formed firing alert with a namespace label. -/
def alertProd : Alert :=
  ⟨"firing", [("namespace", "prod"), ("pod", "api-1"),
    ("alertname", "PodCrashLooping")], []⟩

/-- An alert with no namespace label. -/
def alertNoNs : Alert := ⟨"firing", [("alertname", "NoNamespace")], []⟩

/-- A resolved alert. -/
def alertResolved : Alert :=
  ⟨"resolved", [("namespace", "prod"), ("alertname", "PodGone")], []⟩

/-- A small feedback record fixture. -/
def fbRec (t : Nat) (an cat : String) : Feedback :=
  ⟨t, an, cat, "", "", "", true, "", []⟩

/-- Feedback store of the relevance-fallback scenario: one exact match
for X and three same-category records. -/
def c1Store : List Feedback :=
  [fbRec 1 "A" "net", fbRec 2 "X" "net", fbRec 3 "B" "net", fbRec 4 "C" "net"]

/-- A pending analysis fixture. -/
def pending0 : PendingFeedback :=
  ⟨alertProd, "pod-crash", "analysis text", "t0", "m1", 0⟩

/-- Tick environment whose reaction list holds a negative synonym before
a positive one. -/
def tickEnvMixed : TickEnv :=
  ⟨100, true, fun _ => some ["thumbsup", "x", "white_check_mark"], fun _ => true⟩

/-- Tick environment with a positive reaction and a failing write. -/
def tickEnvRecFail : TickEnv :=
  ⟨100, true, fun _ => some ["white_check_mark"], fun _ => false⟩

/-- Tick environment with a positive reaction and a succeeding write. -/
def tickEnvPos : TickEnv :=
  ⟨100, true, fun _ => some ["white_check_mark"], fun _ => true⟩

/-- ProcessAlert environment of the happy-path scenario: Slack is
configured, every call succeeds, and 25 chunks are streamed. -/
def procEnv25 : ProcEnv :=
  ⟨true, true, "w", "c", some "t0", some "pod-crash", false, none, "blob",
   [], List.replicate 25 "chunk", none, fun _ => some "m1", true, 500⟩

/-- ProcessAlert environment whose categorize call errors. -/
def procEnvCatErr : ProcEnv :=
  ⟨true, true, "w", "c", some "t0", none, false, none, "blob",
   [], ["only-chunk"], none, fun _ => some "m1", true, 500⟩

/-- ManualEnv with no knowledge base configured. -/
def menvNoKb : ManualEnv := ⟨false, fun _ => true, 700⟩

/-- A knowledge case fixture with a non-empty id. -/
def case0 : AlertCase :=
  ⟨"id-1", "PodCrashLooping", "critical", "pod-crash", "s", "prod",
   "api-1", "app", "the analysis", "dbg", true, [], 10, 20⟩

/-- A fixed embedding generator for witnesses. -/
def embedW : String → List Rat := fun _ => [(0 : Rat)]

/-- A distance function for witnesses: squared difference of the
leading components. -/
def distW : List Rat → List Rat → Rat :=
  fun e q => (e.headD 0 - q.headD 0) * (e.headD 0 - q.headD 0)

/-- A knowledge base fixture: one validated matching row, one validated
row below the threshold and one unvalidated row. -/
def kb0 : KnowledgeBase :=
  { table :=
      [{ case0 with id := "a", embedding := [(0 : Rat)] },
       { case0 with id := "b", embedding := [(1 : Rat)] },
       { case0 with id := "c", embedding := [(0 : Rat)], validated := false }]
    embed := embedW
    dist := distW
    similarityThreshold := (1 : Rat) / 2
    maxSimilarCases := 5 }

/-! ### Lemmas about the two passes -/

theorem grfPassOne_length_le (alertName : String) (limit : Nat) :
    ∀ (xs acc : List Feedback), acc.length ≤ limit →
      (grfPassOne alertName limit acc xs).length ≤ limit := by
  intro xs
  induction xs with
  | nil => intro acc h; simpa [grfPassOne] using h
  | cons fb rest ih =>
    intro acc h
    by_cases hstop : limit ≤ acc.length
    · simpa [grfPassOne, hstop] using h
    · by_cases hmatch : fb.alertName == alertName
      · have hlt : acc.length < limit := Nat.lt_of_not_le hstop
        have : (acc ++ [fb]).length ≤ limit := by
          simpa [List.length_append] using hlt
        simpa [grfPassOne, hstop, hmatch] using ih (acc ++ [fb]) this
      · simpa [grfPassOne, hstop, hmatch] using ih acc h

theorem grfPassTwo_length_le (category alertName : String) (limit : Nat) :
    ∀ (xs acc : List Feedback), acc.length ≤ limit →
      (grfPassTwo category alertName limit acc xs).length ≤ limit := by
  intro xs
  induction xs with
  | nil => intro acc h; simpa [grfPassTwo] using h
  | cons fb rest ih =>
    intro acc h
    by_cases hstop : limit ≤ acc.length
    · simpa [grfPassTwo, hstop] using h
    · by_cases hmatch : fb.category == category && fb.alertName != alertName
      · by_cases hdup : containsTs acc fb.timestamp
        · simpa [grfPassTwo, hstop, hmatch, hdup] using ih acc h
        · have hlt : acc.length < limit := Nat.lt_of_not_le hstop
          have : (acc ++ [fb]).length ≤ limit := by
            simpa [List.length_append] using hlt
          simpa [grfPassTwo, hstop, hmatch, hdup] using ih (acc ++ [fb]) this
      · simpa [grfPassTwo, hstop, hmatch] using ih acc h

/-- Pass one only appends exact-name matches, in store scan order. -/
theorem grfPassOne_shape (alertName : String) (limit : Nat) :
    ∀ (xs acc : List Feedback), ∃ ys,
      grfPassOne alertName limit acc xs = acc ++ ys ∧
      (∀ y ∈ ys, y.alertName = alertName) ∧
      ys.Sublist xs := by
  intro xs
  induction xs with
  | nil =>
    intro acc
    exact ⟨[], by simp [grfPassOne], by simp, List.Sublist.refl []⟩
  | cons fb rest ih =>
    intro acc
    by_cases hstop : limit ≤ acc.length
    · exact ⟨[], by simp [grfPassOne, hstop], by simp, List.nil_sublist _⟩
    · by_cases hmatch : fb.alertName == alertName
      · obtain ⟨ys, heq, hall, hsub⟩ := ih (acc ++ [fb])
        refine ⟨fb :: ys, ?_, ?_, ?_⟩
        · simp [grfPassOne, hstop, hmatch, heq]
        · intro y hy
          rcases List.mem_cons.mp hy with h | h
          · subst h; exact eq_of_beq hmatch
          · exact hall y h
        · exact List.Sublist.cons₂ fb hsub
      · obtain ⟨ys, heq, hall, hsub⟩ := ih acc
        exact ⟨ys, by simp [grfPassOne, hstop, hmatch, heq],
          hall, hsub.cons fb⟩

/-- Pass two only appends category matches whose name differs, in store
scan order, and never a record whose timestamp is already present. -/
theorem grfPassTwo_shape (category alertName : String) (limit : Nat) :
    ∀ (xs acc : List Feedback), ∃ ys,
      grfPassTwo category alertName limit acc xs = acc ++ ys ∧
      (∀ y ∈ ys, y.category = category ∧ y.alertName ≠ alertName) ∧
      ys.Sublist xs := by
  intro xs
  induction xs with
  | nil =>
    intro acc
    exact ⟨[], by simp [grfPassTwo], by simp, List.Sublist.refl []⟩
  | cons fb rest ih =>
    intro acc
    by_cases hstop : limit ≤ acc.length
    · exact ⟨[], by simp [grfPassTwo, hstop], by simp, List.nil_sublist _⟩
    · by_cases hmatch : fb.category == category && fb.alertName != alertName
      · have hcat : fb.category = category := by
          have := (Bool.and_eq_true _ _).mp hmatch
          exact eq_of_beq this.1
        have hname : fb.alertName ≠ alertName := by
          have := (Bool.and_eq_true _ _).mp hmatch
          simpa [bne_iff_ne] using this.2
        by_cases hdup : containsTs acc fb.timestamp
        · obtain ⟨ys, heq, hall, hsub⟩ := ih acc
          exact ⟨ys, by simp [grfPassTwo, hstop, hmatch, hdup, heq],
            hall, hsub.cons fb⟩
        · obtain ⟨ys, heq, hall, hsub⟩ := ih (acc ++ [fb])
          refine ⟨fb :: ys, ?_, ?_, ?_⟩
          · simp [grfPassTwo, hstop, hmatch, hdup, heq]
          · intro y hy
            rcases List.mem_cons.mp hy with h | h
            · subst h; exact ⟨hcat, hname⟩
            · exact hall y h
          · exact List.Sublist.cons₂ fb hsub
      · obtain ⟨ys, heq, hall, hsub⟩ := ih acc
        exact ⟨ys, by simp [grfPassTwo, hstop, hmatch, heq],
          hall, hsub.cons fb⟩

/-! ## Claim C1: relevance query of the feedback store -/

/-- Claim C1: for every store state, category, alertName and limit,
GetRelevantFeedback returns at most limit records; the result is a
block of exact alertName matches followed by a block of records matched
only by category, each block taken most-recent-first (a sublist of the
reversed store); when the store timestamps are distinct no record
appears twice; and a total function returns a shorter list rather than
an error when fewer matches exist. -/
theorem getRelevantFeedback_spec (store : List Feedback)
    (category alertName : String) (limit : Nat)
    (h : (store.map Feedback.timestamp).Nodup) :
    (GetRelevantFeedback store category alertName limit).length ≤ limit ∧
    (GetRelevantFeedback store category alertName limit).Nodup ∧
    ∃ xs ys, GetRelevantFeedback store category alertName limit = xs ++ ys ∧
      xs.Sublist store.reverse ∧ ys.Sublist store.reverse ∧
      (∀ fb ∈ xs, fb.alertName = alertName) ∧
      (∀ fb ∈ ys, fb.category = category ∧ fb.alertName ≠ alertName) := by
  have hstore : store.Nodup := h.of_map
  have hndrev : store.reverse.Nodup := List.nodup_reverse.mpr hstore
  obtain ⟨ys1, heq1, hall1, hsub1⟩ :=
    grfPassOne_shape alertName limit store.reverse []
  rw [List.nil_append] at heq1
  have hnd1 : ys1.Nodup := List.Nodup.sublist hsub1 hndrev
  by_cases hlt : (grfPassOne alertName limit [] store.reverse).length < limit
  · obtain ⟨ys2, heq2, hall2, hsub2⟩ :=
      grfPassTwo_shape category alertName limit store.reverse
        (grfPassOne alertName limit [] store.reverse)
    have hres : GetRelevantFeedback store category alertName limit
        = ys1 ++ ys2 := by
      simp only [GetRelevantFeedback, hlt, if_pos]
      rw [heq2, heq1]
    have hnd2 : ys2.Nodup := List.Nodup.sublist hsub2 hndrev
    have hdisj : ys1.Disjoint ys2 := by
      intro a ha1 ha2
      exact (hall2 a ha2).2 (hall1 a ha1)
    refine ⟨?_, ?_, ys1, ys2, hres, hsub1, hsub2, hall1, hall2⟩
    · have := grfPassTwo_length_le category alertName limit store.reverse
        (grfPassOne alertName limit [] store.reverse) (Nat.le_of_lt hlt)
      rw [heq2, heq1] at this
      rw [hres]; exact this
    · rw [hres]; exact hnd1.append hnd2 hdisj
  · have hres : GetRelevantFeedback store category alertName limit = ys1 := by
      simp only [GetRelevantFeedback, hlt, if_neg, if_false]
      exact heq1
    refine ⟨?_, ?_, ys1, [], by simp [hres], hsub1, List.nil_sublist _,
      hall1, by simp⟩
    · rw [hres, ← heq1]
      exact grfPassOne_length_le alertName limit store.reverse [] (by simp)
    · rw [hres]; exact hnd1

/-- Witness for C1: the relevance-fallback scenario store, with the
hypothesis discharged concretely. -/
theorem getRelevantFeedback_spec_witness :
    (GetRelevantFeedback c1Store "net" "X" 3).length ≤ 3 ∧
    (GetRelevantFeedback c1Store "net" "X" 3).Nodup ∧
    ∃ xs ys, GetRelevantFeedback c1Store "net" "X" 3 = xs ++ ys ∧
      xs.Sublist c1Store.reverse ∧ ys.Sublist c1Store.reverse ∧
      (∀ fb ∈ xs, fb.alertName = "X") ∧
      (∀ fb ∈ ys, fb.category = "net" ∧ fb.alertName ≠ "X") :=
  getRelevantFeedback_spec c1Store "net" "X" 3 (by decide)

/-! ## Claim C5: missing namespace label aborts before any effect -/

/-- Claim C5: for every alert whose labels map has an empty or absent
namespace entry, ProcessAlert returns immediately with an empty effect
trace (no chat post, categorize, search, diagnostics, feedback query or
streaming call) and leaves the pending registry unchanged. -/
theorem processAlert_missing_namespace (env : ProcEnv)
    (reg : List (String × PendingFeedback)) (alert : Alert)
    (h : lookupDefault alert.labels "namespace" = "") :
    processAlert env reg alert = ⟨[], reg⟩ := by
  simp [processAlert, h]

/-- Witness for C5: a concrete alert with no namespace label. -/
theorem processAlert_missing_namespace_witness :
    processAlert procEnv25 [] alertNoNs = ⟨[], []⟩ :=
  processAlert_missing_namespace procEnv25 [] alertNoNs (by decide)

/-! ## Claim C9: the webhook handler drops non-firing alerts -/

/-- Claim C9: an alert parsed from an accepted webhook whose status is
neither firing nor empty is acknowledged with a 200 response but never
handed to ProcessAlert, so it is never processed and no pending entry
can be created for it. -/
theorem handleWebhook_drops_resolved (alerts : List Alert)
    (source : String) (a : Alert) (hmem : a ∈ alerts)
    (hfiring : a.status ≠ "firing") (hempty : a.status ≠ "") :
    (handleWebhook (some (alerts, source))).1 = 200 ∧
    a ∉ (handleWebhook (some (alerts, source))).2 := by
  refine ⟨rfl, ?_⟩
  intro hcontra
  have := List.of_mem_filter hcontra
  simp only [shouldProcess, Bool.or_eq_true, beq_iff_eq] at this
  rcases this with h | h
  · exact hfiring h
  · exact hempty h

/-- Witness for C9: a concrete resolved alert in a parsed webhook. -/
theorem handleWebhook_drops_resolved_witness :
    (handleWebhook (some ([alertResolved, alertProd], "alertmanager"))).1 = 200 ∧
    alertResolved ∉ (handleWebhook (some ([alertResolved, alertProd], "alertmanager"))).2 :=
  handleWebhook_drops_resolved [alertResolved, alertProd] "alertmanager"
    alertResolved (by decide) (by decide) (by decide)

/-! ## Claims C2 and C10: the reconciliation tick -/

/-- The tick loop keeps exactly the entries processPending does not
delete, and its trace is the concatenation of the per-entry traces. -/
theorem tickPending_eq (env : TickEnv) :
    ∀ ps : List PendingFeedback,
      (tickPending env ps).1 = ps.filter (fun q => !(processPending env q).2) ∧
      (tickPending env ps).2 = (ps.map (fun q => (processPending env q).1)).flatten := by
  intro ps
  induction ps with
  | nil => simp [tickPending]
  | cons p rest ih =>
    by_cases h : (processPending env p).2 <;>
      simp [tickPending, h, ih.1, ih.2]

/-- Counterexample to C2 as stated: a reaction list containing a
positive synonym for which the recorded feedback is nonetheless
negative, because a negative synonym is scanned first.  The claim form
"the reaction set contains a positive-synonym name, hence IsCorrect =
true" fails on this entry. -/
theorem reaction_positive_synonym_counterexample :
    positiveReaction "white_check_mark" = true ∧
    "white_check_mark" ∈ ["thumbsup", "x", "white_check_mark"] ∧
    tickEnvMixed.reactions pending0.analysisTS
      = some ["thumbsup", "x", "white_check_mark"] ∧
    (processPending tickEnvMixed pending0).1 =
      [Effect.record (mkReactionFeedback tickEnvMixed.now pending0 false),
       Effect.replyToThread pending0.threadTS (confirmText false)] ∧
    (mkReactionFeedback tickEnvMixed.now pending0 false).isCorrect = false := by
  refine ⟨rfl, by decide, rfl, ?_, rfl⟩
  decide

/-- Claim C2 (amended): on each tick the registry keeps exactly the
entries not deleted and the trace concatenates the per-entry effects;
for each pending entry: older than 24 hours means deleted with no
record; a reaction-lookup error keeps the entry with no effects; when
the reaction list is scanned, the first positive or negative synonym
encountered decides, producing exactly one FeedbackRecord whose
IsCorrect matches that first match, with the entry removed; with no
synonym match the entry stays pending with no effects. -/
theorem tick_reaction_spec (env : TickEnv) (ps : List PendingFeedback)
    (p : PendingFeedback) :
    ((tickPending env ps).1 = ps.filter (fun q => !(processPending env q).2) ∧
     (tickPending env ps).2 = (ps.map (fun q => (processPending env q).1)).flatten) ∧
    (24 * 3600 < env.now - p.timestamp → processPending env p = ([], true)) ∧
    (¬ 24 * 3600 < env.now - p.timestamp →
      (env.reactions p.analysisTS = none → processPending env p = ([], false)) ∧
      ∀ rs, env.reactions p.analysisTS = some rs →
        (scanReactions rs = none → processPending env p = ([], false)) ∧
        ∀ b, scanReactions rs = some b →
          countEffects isRecordEffect (processPending env p).1 = 1 ∧
          Effect.record (mkReactionFeedback env.now p b) ∈ (processPending env p).1 ∧
          (mkReactionFeedback env.now p b).isCorrect = b ∧
          (processPending env p).2 = true) := by
  refine ⟨tickPending_eq env ps, ?_, ?_⟩
  · intro hage
    simp [processPending, hage]
  · intro hage
    refine ⟨?_, ?_⟩
    · intro herr
      simp [processPending, hage, herr]
    · intro rs hrs
      refine ⟨?_, ?_⟩
      · intro hnone
        simp [processPending, hage, hrs, hnone]
      · intro b hscan
        have hic : (mkReactionFeedback env.now p b).isCorrect = b := rfl
        by_cases hrec : env.recordOk (mkReactionFeedback env.now p b)
        · by_cases hkb : b && env.kbConfigured <;>
            simp [processPending, hage, hrs, hscan, hrec, hkb, countEffects,
              isRecordEffect, hic]
        · simp [processPending, hage, hrs, hscan, hrec, countEffects,
            isRecordEffect, hic]

/-- Witness for C2 (amended): a positive reaction on a fresh entry
yields one positive record and removes the entry. -/
theorem tick_reaction_spec_witness :
    countEffects isRecordEffect (processPending tickEnvPos pending0).1 = 1 ∧
    Effect.record (mkReactionFeedback tickEnvPos.now pending0 true)
      ∈ (processPending tickEnvPos pending0).1 ∧
    (mkReactionFeedback tickEnvPos.now pending0 true).isCorrect = true ∧
    (processPending tickEnvPos pending0).2 = true :=
  ((((tick_reaction_spec tickEnvPos [pending0] pending0).2.2 (by decide)).2
      ["white_check_mark"] rfl).2 true (by decide))

/-- Claim C10: when a reaction matched but the feedback write fails,
the only effect is the attempted record — no knowledge-base store, no
confirmation reply — and the entry is deleted anyway, also from the
whole-tick registry, so the failed write is never retried. -/
theorem record_failure_entry_still_deleted (env : TickEnv)
    (p : PendingFeedback) (rs : List String) (b : Bool)
    (hage : ¬ 24 * 3600 < env.now - p.timestamp)
    (hrs : env.reactions p.analysisTS = some rs)
    (hscan : scanReactions rs = some b)
    (hfail : env.recordOk (mkReactionFeedback env.now p b) = false) :
    processPending env p = ([Effect.record (mkReactionFeedback env.now p b)], true) ∧
    ∀ ps : List PendingFeedback, p ∉ (tickPending env ps).1 := by
  have hproc : processPending env p
      = ([Effect.record (mkReactionFeedback env.now p b)], true) := by
    simp [processPending, hage, hrs, hscan, hfail]
  refine ⟨hproc, ?_⟩
  intro ps hcontra
  rw [(tickPending_eq env ps).1] at hcontra
  have := List.of_mem_filter hcontra
  rw [hproc] at this
  simp at this

/-- Witness for C10: a failing write with a positive reaction. -/
theorem record_failure_entry_still_deleted_witness :
    processPending tickEnvRecFail pending0 =
      ([Effect.record (mkReactionFeedback tickEnvRecFail.now pending0 true)], true) ∧
    ∀ ps : List PendingFeedback, pending0 ∉ (tickPending tickEnvRecFail ps).1 :=
  record_failure_entry_still_deleted tickEnvRecFail pending0
    ["white_check_mark"] true (by decide) rfl (by decide) (by decide)

/-! ## Claim C6: category post-processing and the unknown fallback -/

/-- Counterexample to C6 as stated: on a response starting with a
newline the claimed processing order (lowercase, cut at first newline,
cut at first colon, trim) yields the empty string and hence unknown,
while the code trims the whole response first and returns memory. -/
theorem categorize_order_counterexample :
    categorizePost "\nmemory".toList = "memory".toList ∧
    specCategorizePost "\nmemory".toList = "unknown".toList ∧
    "memory".toList ≠ "unknown".toList := by decide

/-- Claim C6 (amended): the post-processing first trims the whole
response, then lowercases, cuts at the first newline and trims, cuts at
the first colon and trims; the result is returned exactly when it is
one of the eleven fixed labels and any other result is coerced to
unknown with no error; and when Categorize errors, ProcessAlert
substitutes the category unknown and continues the pipeline. -/
theorem categorize_post_spec (resp : List Char) (env : ProcEnv)
    (reg : List (String × PendingFeedback)) (alert : Alert)
    (hns : lookupDefault alert.labels "namespace" ≠ "")
    (herr : env.categorizeRes = none) :
    (validCategories.contains (cleanCategory resp) = true →
        categorizePost resp = cleanCategory resp) ∧
    (validCategories.contains (cleanCategory resp) = false →
        categorizePost resp = "unknown".toList) ∧
    validCategories.contains (categorizePost resp) = true ∧
    Effect.gatherDebug "unknown" ∈ (processAlert env reg alert).effects ∧
    Effect.getFeedback "unknown" (lookupDefault alert.labels "alertname") 1
      ∈ (processAlert env reg alert).effects := by
  refine ⟨?_, ?_, ?_, ?_, ?_⟩
  · intro hval
    have hm : cleanCategory resp ∈ validCategories := by simpa using hval
    simp [categorizePost, hm]
  · intro hval
    have hm : cleanCategory resp ∉ validCategories := by simpa using hval
    simp [categorizePost, hm]
  · by_cases hm : cleanCategory resp ∈ validCategories
    · simp [categorizePost, hm]
    · simp [categorizePost, hm]
      decide
  · simp [processAlert, processAlertPre, procCategory, hns, herr,
      List.mem_append]
  · simp [processAlert, processAlertPre, procCategory, hns, herr,
      List.mem_append]

/-- Witness for C6 (amended): a categorize error on a concrete env and
alert, with a concrete raw response. -/
theorem categorize_post_spec_witness :
    (validCategories.contains (cleanCategory "  Pod-Crash : why\nrest".toList) = true →
        categorizePost "  Pod-Crash : why\nrest".toList
          = cleanCategory "  Pod-Crash : why\nrest".toList) ∧
    (validCategories.contains (cleanCategory "  Pod-Crash : why\nrest".toList) = false →
        categorizePost "  Pod-Crash : why\nrest".toList = "unknown".toList) ∧
    validCategories.contains (categorizePost "  Pod-Crash : why\nrest".toList) = true ∧
    Effect.gatherDebug "unknown" ∈ (processAlert procEnvCatErr [] alertProd).effects ∧
    Effect.getFeedback "unknown" (lookupDefault alertProd.labels "alertname") 1
      ∈ (processAlert procEnvCatErr [] alertProd).effects :=
  categorize_post_spec "  Pod-Crash : why\nrest".toList procEnvCatErr []
    alertProd (by decide) rfl

/-! ## Claim C7: knowledge-base writes are gated on positive feedback -/

/-- Every effect appended by one streaming callback step is a message
creation or an in-place update. -/
theorem chunkStep_effects (env : ProcEnv) (threadTS : String)
    (s : StreamState) (c : String) :
    ∃ es, (chunkStep env threadTS s c).effects = s.effects ++ es ∧
      ∀ e ∈ es, (isCreateEffect e || isUpdateEffect e) = true := by
  by_cases h1 : env.slackConfigured && threadTS != "" && (s.count + 1) % 10 == 0
  · by_cases h2 : s.msgTS == ""
    · rcases hm : env.sendSeq s.sends with _ | ts
      · refine ⟨[Effect.sendInThread threadTS (progressHeader ++ (s.buf ++ c))], ?_, ?_⟩
        · simp [chunkStep, h1, h2, hm]
        · simp [isCreateEffect]
      · refine ⟨[Effect.sendInThread threadTS (progressHeader ++ (s.buf ++ c))], ?_, ?_⟩
        · simp [chunkStep, h1, h2, hm]
        · simp [isCreateEffect]
    · refine ⟨[Effect.updateMessage s.msgTS (progressHeader ++ (s.buf ++ c))], ?_, ?_⟩
      · simp [chunkStep, h1, h2]
      · simp [isUpdateEffect]
  · exact ⟨[], by simp [chunkStep, h1], by simp⟩

/-- Every effect in a streaming fold starting from well-shaped effects
is a message creation or an update. -/
theorem runStream_effects_shape (env : ProcEnv) (threadTS : String) :
    ∀ (cs : List String) (s : StreamState),
      (∀ e ∈ s.effects, (isCreateEffect e || isUpdateEffect e) = true) →
      ∀ e ∈ (cs.foldl (chunkStep env threadTS) s).effects,
        (isCreateEffect e || isUpdateEffect e) = true := by
  intro cs
  induction cs with
  | nil => intro s h; simpa using h
  | cons c rest ih =>
    intro s h
    obtain ⟨es, heq, hall⟩ := chunkStep_effects env threadTS s c
    refine ih (chunkStep env threadTS s c) ?_
    rw [heq]
    intro e he
    rcases List.mem_append.mp he with h1 | h1
    · exact h e h1
    · exact hall e h1

/-- Every effect of the finalization step is a message creation, an
in-place update or a flat analysis message. -/
theorem finalizeAlert_effects_shape (env : ProcEnv)
    (reg : List (String × PendingFeedback)) (alert : Alert)
    (category threadTS : String) (st : StreamState) (analysis : String) :
    ∀ e ∈ (finalizeAlert env reg alert category threadTS st analysis).1,
      isCreateEffect e = true ∨ isUpdateEffect e = true ∨
      ∃ t, e = Effect.sendAnalysisFlat t := by
  intro e he
  by_cases h1 : env.slackConfigured && threadTS != ""
  · by_cases h2 : st.msgTS != ""
    · simp [finalizeAlert, h1, h2] at he
      exact Or.inr (Or.inl (by simp [he, isUpdateEffect]))
    · rcases hs : env.sendSeq st.sends with _ | ts
      · simp [finalizeAlert, h1, h2, hs] at he
        exact Or.inl (by simp [he, isCreateEffect])
      · by_cases h3 : ts != ""
        · simp [finalizeAlert, h1, h2, hs, h3] at he
          exact Or.inl (by simp [he, isCreateEffect])
        · simp [finalizeAlert, h1, h2, hs, h3] at he
          exact Or.inl (by simp [he, isCreateEffect])
  · by_cases h4 : env.slackConfigured
    · have ht : threadTS = "" := by
        by_contra hne
        exact h1 (by simp [h4, hne])
      simp [finalizeAlert, h4, ht] at he
      exact Or.inr (Or.inr ⟨_, he⟩)
    · simp [finalizeAlert, h4] at he

/-- Claim C7: a knowledge-base Store happens only for feedback with
IsCorrect true and a configured knowledge base, in both the manual path
and the reaction path, and every stored case is validated; with no
knowledge base, ProcessAlert never calls FindSimilar and a positive
manual feedback records without storing. -/
theorem kb_store_gating (menv : ManualEnv) (alert : Alert)
    (category analysis slackThread : String) (isCorrect : Bool)
    (tenv : TickEnv) (p : PendingFeedback) (penv : ProcEnv)
    (reg : List (String × PendingFeedback)) (a2 : Alert) :
    (∀ c, Effect.kbStore c ∈
        (RecordManualFeedback menv alert category analysis slackThread isCorrect).1 →
      isCorrect = true ∧ menv.kbConfigured = true ∧ c.validated = true) ∧
    (∀ c, Effect.kbStore c ∈ (processPending tenv p).1 →
      tenv.kbConfigured = true ∧ c.validated = true ∧
      ∃ fb, Effect.record fb ∈ (processPending tenv p).1 ∧ fb.isCorrect = true) ∧
    (penv.kbConfigured = false →
      ∀ x, Effect.findSimilar x ∉ (processAlert penv reg a2).effects) ∧
    (menv.kbConfigured = false → isCorrect = true →
      (RecordManualFeedback menv alert category analysis slackThread isCorrect).1 =
        [Effect.record (mkManualFeedback menv.now alert category analysis slackThread true)]) := by
  refine ⟨?_, ?_, ?_, ?_⟩
  · intro c hc
    by_cases hrec : menv.recordOk
        (mkManualFeedback menv.now alert category analysis slackThread isCorrect)
    · by_cases hic : isCorrect && menv.kbConfigured
      · simp [RecordManualFeedback, hrec, hic] at hc
        obtain ⟨h1, h2⟩ := Bool.and_eq_true _ _ |>.mp hic
        exact ⟨h1, h2, by simp [hc, FromAlert]⟩
      · simp [RecordManualFeedback, hrec, hic] at hc
    · simp [RecordManualFeedback, hrec] at hc
  · intro c hc
    by_cases hage : 24 * 3600 < tenv.now - p.timestamp
    · simp [processPending, hage] at hc
    · rcases hr : tenv.reactions p.analysisTS with _ | rs
      · simp [processPending, hage, hr] at hc
      · rcases hs : scanReactions rs with _ | b
        · simp [processPending, hage, hr, hs] at hc
        · by_cases hrec : tenv.recordOk (mkReactionFeedback tenv.now p b)
          · by_cases hkb : b && tenv.kbConfigured
            · simp only [processPending, hage, hr, hs, hrec, hkb] at hc
              obtain ⟨hb, hkbc⟩ := Bool.and_eq_true _ _ |>.mp hkb
              subst hb
              simp at hc
              refine ⟨hkbc, by simp [hc, FromAlert],
                ⟨mkReactionFeedback tenv.now p true, ?_, rfl⟩⟩
              simp [processPending, hage, hr, hs, hrec, hkb]
            · simp [processPending, hage, hr, hs, hrec, hkb] at hc
          · simp [processPending, hage, hr, hs, hrec] at hc
  · intro hkb x hmem
    by_cases hns : lookupDefault a2.labels "namespace" == ""
    · simp [processAlert, hns] at hmem
    · have hns' : (lookupDefault a2.labels "namespace" == "") = false := by
        simpa using hns
      simp only [processAlert, hns', Bool.false_eq_true, if_false] at hmem
      rcases List.mem_append.mp hmem with h | h
      · rcases List.mem_append.mp h with h | h
        · rcases List.mem_append.mp h with h | h
          · rcases List.mem_append.mp h with h | h
            · rcases List.mem_append.mp h with h | h
              · by_cases hsl : penv.slackConfigured <;> simp [hsl] at h
              · simp at h
            · simp [hkb] at h
          · simp at h
        · have := runStream_effects_shape penv _ penv.chunks ⟨"", "", 0, 0, []⟩
            (by intro y hy; simp at hy) _ h
          simp [isCreateEffect, isUpdateEffect] at this
      · rcases finalizeAlert_effects_shape penv reg a2 _ _ _ _ _ h with
          h1 | h1 | ⟨t, h1⟩
        · simp [isCreateEffect] at h1
        · simp [isUpdateEffect] at h1
        · simp at h1
  · intro hkb hic
    subst hic
    by_cases hrec : menv.recordOk
        (mkManualFeedback menv.now alert category analysis slackThread true) <;>
      simp [RecordManualFeedback, hrec, hkb]

/-- Witness for C7: with no knowledge base configured, a positive
manual feedback performs exactly the record effect, on concrete
inputs. -/
theorem kb_store_gating_witness :
    (RecordManualFeedback menvNoKb alertProd "cpu" "an" "t0" true).1 =
      [Effect.record (mkManualFeedback menvNoKb.now alertProd "cpu" "an" "t0" true)] :=
  (kb_store_gating menvNoKb alertProd "cpu" "an" "t0" true
    tickEnvPos pending0 procEnv25 [] alertProd).2.2.2 rfl rfl

/-! ## Claim C8: knowledge-base upsert by id -/

/-- Mapping a function that fixes every member is the identity. -/
theorem map_id_of_mem {α : Type} (f : α → α) :
    ∀ l : List α, (∀ a ∈ l, f a = a) → l.map f = l := by
  intro l
  induction l with
  | nil => intro _; rfl
  | cons x xs ih =>
    intro h
    simp only [List.map_cons]
    rw [h x (by simp), ih (fun a ha => h a (by simp [ha]))]

/-- Every row of the stored table carrying the stored id holds the
upserted column values, embedding included. -/
theorem storeCase_row_fields (embed : String → List Rat) (uuid : String)
    (table : List AlertCase) (c : AlertCase) :
    ∀ r ∈ storeCase embed uuid table c, r.id = storeId uuid c →
      r.category = c.category ∧ r.analysis = c.analysis ∧
      r.debugInfo = c.debugInfo ∧ r.validated = c.validated ∧
      r.embedding = embed (GetSearchText c) ∧ r.updatedAt = c.updatedAt := by
  intro r hr hid
  by_cases hany : table.any (fun row => row.id == storeId uuid c)
  · simp only [storeCase, hany, if_pos] at hr
    obtain ⟨row, hrow, heq⟩ := List.mem_map.mp hr
    by_cases hrid : row.id == storeId uuid c
    · rw [if_pos hrid] at heq
      rw [← heq]
      simp [upsertFields]
    · rw [if_neg hrid] at heq
      rw [← heq] at hid
      exact absurd (by simpa using hid) hrid
  · simp only [storeCase, hany, Bool.false_eq_true, if_false] at hr
    rcases List.mem_append.mp hr with h | h
    · exfalso
      exact hany (List.any_eq_true.mpr ⟨r, h, by simpa using hid⟩)
    · simp only [List.mem_singleton] at h
      subst h
      simp

/-- The stored table always contains a row with the stored id. -/
theorem storeCase_has_id (embed : String → List Rat) (uuid : String)
    (table : List AlertCase) (c : AlertCase) :
    (storeCase embed uuid table c).any (fun r => r.id == storeId uuid c) = true := by
  by_cases hany : table.any (fun row => row.id == storeId uuid c)
  · simp only [storeCase, hany, if_pos]
    obtain ⟨row, hrow, hid⟩ := List.any_eq_true.mp hany
    refine List.any_eq_true.mpr
      ⟨if row.id == storeId uuid c then
          upsertFields row c (embed (GetSearchText c)) else row,
        List.mem_map_of_mem _ hrow, ?_⟩
    rw [if_pos hid]
    simpa [upsertFields] using hid
  · simp only [storeCase, hany, Bool.false_eq_true, if_false]
    exact List.any_eq_true.mpr
      ⟨{ c with id := storeId uuid c, embedding := embed (GetSearchText c) },
        by simp, by simp⟩

/-- Claim C8: Store upserts by id — storing the same case twice leaves
the table unchanged the second time (in particular the row count), the
conflicting row has its category, analysis, debug info, validated flag,
embedding and updated-at replaced rather than a duplicate inserted, and
the stored embedding is generated from the concatenated search text of
the case. -/
theorem storeCase_upsert_spec (embed : String → List Rat) (uuid : String)
    (table : List AlertCase) (c : AlertCase) :
    storeCase embed uuid (storeCase embed uuid table c) c
      = storeCase embed uuid table c ∧
    (storeCase embed uuid (storeCase embed uuid table c) c).length
      = (storeCase embed uuid table c).length ∧
    (∀ r ∈ storeCase embed uuid table c, r.id = storeId uuid c →
      r.category = c.category ∧ r.analysis = c.analysis ∧
      r.debugInfo = c.debugInfo ∧ r.validated = c.validated ∧
      r.embedding = embed (GetSearchText c) ∧ r.updatedAt = c.updatedAt) := by
  have hfix : ∀ r ∈ storeCase embed uuid table c,
      (if r.id == storeId uuid c then
        upsertFields r c (embed (GetSearchText c)) else r) = r := by
    intro r hr
    by_cases hid : r.id == storeId uuid c
    · rw [if_pos hid]
      obtain ⟨h1, h2, h3, h4, h5, h6⟩ :=
        storeCase_row_fields embed uuid table c r hr (by simpa using hid)
      cases r
      simp_all [upsertFields]
    · rw [if_neg hid]
  have hidem : storeCase embed uuid (storeCase embed uuid table c) c
      = storeCase embed uuid table c := by
    have hany := storeCase_has_id embed uuid table c
    conv_lhs => rw [storeCase]
    rw [hany]
    simp only [if_pos]
    exact map_id_of_mem _ _ hfix
  exact ⟨hidem, by rw [hidem],
    storeCase_row_fields embed uuid table c⟩

/-- Witness for C8: a concrete double store on an empty table and the
embedding of the stored row, hypotheses discharged concretely. -/
theorem storeCase_upsert_spec_witness :
    storeCase embedW "u1" (storeCase embedW "u1" [] case0) case0
      = storeCase embedW "u1" [] case0 ∧
    ({ case0 with embedding := embedW (GetSearchText case0) } : AlertCase).embedding
      = embedW (GetSearchText case0) :=
  ⟨(storeCase_upsert_spec embedW "u1" [] case0).1,
   (((storeCase_upsert_spec embedW "u1" [] case0).2.2
      { case0 with embedding := embedW (GetSearchText case0) }
      (by decide) (by decide)).2.2.2.2).1⟩

/-! ## Claim C3: similarity search of the knowledge base -/

/-- Inserting into a list permutes consing onto it. -/
theorem insertLe_perm {α : Type} (le : α → α → Bool) (x : α) :
    ∀ l : List α, (insertLe le x l).Perm (x :: l) := by
  intro l
  induction l with
  | nil => simp [insertLe]
  | cons y ys ih =>
    by_cases h : le x y
    · simp [insertLe, h]
    · simp only [insertLe, h, Bool.false_eq_true, if_false]
      exact (ih.cons y).trans (List.Perm.swap x y ys)

/-- The insertion sort permutes its input. -/
theorem sortLe_perm {α : Type} (le : α → α → Bool) :
    ∀ l : List α, (sortLe le l).Perm l := by
  intro l
  induction l with
  | nil => simp [sortLe]
  | cons x xs ih =>
    exact (insertLe_perm le x (sortLe le xs)).trans (ih.cons x)

/-- Insertion preserves sortedness for a total transitive relation. -/
theorem insertLe_pairwise {α : Type} (le : α → α → Bool)
    (htot : ∀ a b, le a b = true ∨ le b a = true)
    (htrans : ∀ a b c, le a b = true → le b c = true → le a c = true)
    (x : α) :
    ∀ l : List α, l.Pairwise (fun a b => le a b = true) →
      (insertLe le x l).Pairwise (fun a b => le a b = true) := by
  intro l
  induction l with
  | nil => intro _; simp [insertLe]
  | cons y ys ih =>
    intro hp
    rcases List.pairwise_cons.mp hp with ⟨hy, hys⟩
    by_cases h : le x y
    · simp only [insertLe, h, if_pos]
      refine List.pairwise_cons.mpr ⟨?_, hp⟩
      intro z hz
      rcases List.mem_cons.mp hz with rfl | hz
      · exact h
      · exact htrans x y z h (hy z hz)
    · simp only [insertLe, h, Bool.false_eq_true, if_false]
      refine List.pairwise_cons.mpr ⟨?_, ih hys⟩
      intro z hz
      rcases List.mem_cons.mp ((insertLe_perm le x ys).mem_iff.mp hz) with hzx | hz2
      · rcases htot x y with h1 | h1
        · exact absurd h1 h
        · rw [hzx]; exact h1
      · exact hy z hz2

/-- The insertion sort sorts, for a total transitive relation. -/
theorem sortLe_pairwise {α : Type} (le : α → α → Bool)
    (htot : ∀ a b, le a b = true ∨ le b a = true)
    (htrans : ∀ a b c, le a b = true → le b c = true → le a c = true) :
    ∀ l : List α, (sortLe le l).Pairwise (fun a b => le a b = true) := by
  intro l
  induction l with
  | nil => simp [sortLe]
  | cons x xs ih => exact insertLe_pairwise le htot htrans x _ ih

/-- Claim C3: FindSimilar returns only validated cases whose similarity
(one minus the cosine distance between case embedding and query
embedding) reaches the construction-time threshold, pairs each case
with exactly that similarity, returns at most maxSimilarCases results
in non-increasing similarity order, and returns the empty list (not an
error) when no case clears the threshold. -/
theorem findSimilar_spec (kb : KnowledgeBase) (searchText : String) :
    (FindSimilar kb searchText).length ≤ kb.maxSimilarCases ∧
    (∀ p ∈ FindSimilar kb searchText,
      p.1.validated = true ∧
      p.2 = 1 - kb.dist p.1.embedding (kb.embed searchText) ∧
      kb.similarityThreshold ≤ p.2) ∧
    (FindSimilar kb searchText).Pairwise (fun p q => q.2 ≤ p.2) ∧
    ((∀ r ∈ kb.table, r.validated = true →
        ¬ kb.similarityThreshold ≤ 1 - kb.dist r.embedding (kb.embed searchText)) →
      FindSimilar kb searchText = []) := by
  have hq : FindSimilar kb searchText = findSimilarQuery kb.dist kb.table
      (kb.embed searchText) kb.similarityThreshold kb.maxSimilarCases := rfl
  set q := kb.embed searchText with hqdef
  set dle : AlertCase → AlertCase → Bool :=
    fun a b => decide (kb.dist a.embedding q ≤ kb.dist b.embedding q) with hdle
  have htot : ∀ a b, dle a b = true ∨ dle b a = true := by
    intro a b
    rcases le_total (kb.dist a.embedding q) (kb.dist b.embedding q) with h | h
    · exact Or.inl (by simpa [hdle] using h)
    · exact Or.inr (by simpa [hdle] using h)
  have htrans : ∀ a b c, dle a b = true → dle b c = true → dle a c = true := by
    intro a b c h1 h2
    simp only [hdle, decide_eq_true_eq] at h1 h2 ⊢
    exact le_trans h1 h2
  have hmemElig : ∀ r, r ∈ kb.table.filter
      (fun r => r.validated && decide (kb.similarityThreshold ≤ 1 - kb.dist r.embedding q)) →
      r.validated = true ∧ kb.similarityThreshold ≤ 1 - kb.dist r.embedding q := by
    intro r hr
    have := List.of_mem_filter hr
    simp only [Bool.and_eq_true, decide_eq_true_eq] at this
    exact this
  refine ⟨?_, ?_, ?_, ?_⟩
  · rw [hq]
    simp only [findSimilarQuery, List.length_map, List.length_take]
    exact min_le_left _ _
  · intro p hp
    rw [hq] at hp
    simp only [findSimilarQuery] at hp
    obtain ⟨r, hr, hpr⟩ := List.mem_map.mp hp
    have hr2 : r ∈ sortLe dle (kb.table.filter
        (fun r => r.validated && decide (kb.similarityThreshold ≤ 1 - kb.dist r.embedding q))) :=
      List.mem_of_mem_take hr
    have hr3 := (sortLe_perm dle _).mem_iff.mp hr2
    obtain ⟨hval, hth⟩ := hmemElig r hr3
    refine ⟨?_, ?_, ?_⟩
    · rw [← hpr]; exact hval
    · rw [← hpr]
    · rw [← hpr]; exact hth
  · rw [hq]
    simp only [findSimilarQuery]
    refine (List.pairwise_map).mpr ?_
    have hsorted := sortLe_pairwise dle htot htrans (kb.table.filter
      (fun r => r.validated && decide (kb.similarityThreshold ≤ 1 - kb.dist r.embedding q)))
    have htake := hsorted.sublist (List.take_sublist kb.maxSimilarCases _)
    refine htake.imp ?_
    intro a b hab
    simp only [hdle, decide_eq_true_eq] at hab
    exact sub_le_sub_left hab 1
  · intro hnone
    rw [hq]
    simp only [findSimilarQuery]
    have hfil : kb.table.filter
        (fun r => r.validated && decide (kb.similarityThreshold ≤ 1 - kb.dist r.embedding q)) = [] := by
      rw [List.filter_eq_nil]
      intro r hr
      simp only [Bool.and_eq_true, decide_eq_true_eq, not_and]
      intro hval
      exact hnone r hr hval
    rw [hfil]
    simp [sortLe]

/-- The fixture query evaluates to the single validated row clearing
the threshold, paired with its similarity. -/
theorem kb0_result : FindSimilar kb0 "query" =
    [(({ case0 with id := "a", embedding := [(0 : Rat)] } : AlertCase), (1 : Rat))] := by
  norm_num [FindSimilar, findSimilarQuery, kb0, embedW, distW, case0,
    sortLe, insertLe, List.filter]

/-- Witness for C3: a concrete knowledge base with one validated row
clearing the threshold, exercising the membership conjunct at the top
result. -/
theorem findSimilar_spec_witness :
    (FindSimilar kb0 "query").length ≤ kb0.maxSimilarCases ∧
    (FindSimilar kb0 "query").Pairwise (fun p q => q.2 ≤ p.2) ∧
    kb0.similarityThreshold ≤
      (({ case0 with id := "a", embedding := [(0 : Rat)] } : AlertCase), (1 : Rat)).2 :=
  ⟨(findSimilar_spec kb0 "query").1,
   (findSimilar_spec kb0 "query").2.2.1,
   (((findSimilar_spec kb0 "query").2.1) _ (by rw [kb0_result]; simp)).2.2⟩

/-! ## Claim C4: the notification streaming state machine -/

/-- Effect counting distributes over trace concatenation. -/
theorem countEffects_append (p : Effect → Bool) (a b : List Effect) :
    countEffects p (a ++ b) = countEffects p a + countEffects p b := by
  simp [countEffects, List.filter_append]

/-- One streaming callback step preserves the streaming invariant: the
message exists exactly from the tenth chunk on (created through the
first send result), one creation in total, and one update per later
ten-chunk boundary. -/
theorem chunkStep_inv (env : ProcEnv) (threadTS ts0 : String)
    (hcfg : env.slackConfigured = true) (hts : threadTS ≠ "")
    (hsend : env.sendSeq 0 = some ts0) (hts0 : ts0 ≠ "")
    (s : StreamState) (c : String)
    (hmsg : s.msgTS = if 10 ≤ s.count then ts0 else "")
    (hsends : s.sends = if 10 ≤ s.count then 1 else 0)
    (hcr : countEffects isCreateEffect s.effects
      = if 10 ≤ s.count then 1 else 0)
    (hup : countEffects isUpdateEffect s.effects
      = s.count / 10 - (if 10 ≤ s.count then 1 else 0)) :
    (chunkStep env threadTS s c).count = s.count + 1 ∧
    (chunkStep env threadTS s c).msgTS
      = (if 10 ≤ s.count + 1 then ts0 else "") ∧
    (chunkStep env threadTS s c).sends
      = (if 10 ≤ s.count + 1 then 1 else 0) ∧
    countEffects isCreateEffect (chunkStep env threadTS s c).effects
      = (if 10 ≤ s.count + 1 then 1 else 0) ∧
    countEffects isUpdateEffect (chunkStep env threadTS s c).effects
      = (s.count + 1) / 10 - (if 10 ≤ s.count + 1 then 1 else 0) := by
  have hbt : (threadTS != "") = true := by simp [hts]
  by_cases hmod : ((s.count + 1) % 10 == 0)
  · have hmod' : (s.count + 1) % 10 = 0 := by simpa using hmod
    have hdvd : 10 ∣ s.count + 1 :=
      Nat.dvd_of_mod_eq_zero hmod'
    have h10 : 10 ≤ s.count + 1 := Nat.le_of_dvd (Nat.succ_pos _) hdvd
    have hdiv : (s.count + 1) / 10 = s.count / 10 + 1 := by
      rw [Nat.succ_div, if_pos hdvd]
    by_cases hk : 10 ≤ s.count
    · have hmsgts : s.msgTS = ts0 := by rw [hmsg, if_pos hk]
      have hne : (s.msgTS == "") = false := by simp [hmsgts, hts0]
      have h1div : 1 ≤ s.count / 10 :=
        (Nat.one_le_div_iff (by norm_num)).mpr hk
      have hstep : chunkStep env threadTS s c =
          { buf := s.buf ++ c, msgTS := s.msgTS, count := s.count + 1,
            sends := s.sends, effects := s.effects
              ++ [Effect.updateMessage s.msgTS
                    (progressHeader ++ (s.buf ++ c))] } := by
        simp [chunkStep, hcfg, hbt, hmod, hne]
      rw [hstep]
      refine ⟨rfl, ?_, ?_, ?_, ?_⟩
      · rw [if_pos h10]; exact hmsgts
      · rw [hsends, if_pos hk, if_pos h10]
      · rw [countEffects_append, hcr, if_pos hk, if_pos h10]
        simp [countEffects, isCreateEffect]
      · rw [countEffects_append, hup, if_pos hk, if_pos h10, hdiv]
        have hone : countEffects isUpdateEffect
            [Effect.updateMessage s.msgTS (progressHeader ++ (s.buf ++ c))]
            = 1 := by simp [countEffects, isUpdateEffect]
        rw [hone]
        omega
    · have hmsgts : s.msgTS = "" := by rw [hmsg, if_neg hk]
      have heqe : (s.msgTS == "") = true := by simp [hmsgts]
      have hsends0 : s.sends = 0 := by rw [hsends, if_neg hk]
      have hdiv0 : s.count / 10 = 0 :=
        Nat.div_eq_of_lt (Nat.lt_of_not_le hk)
      have hstep : chunkStep env threadTS s c =
          { buf := s.buf ++ c, msgTS := ts0, count := s.count + 1,
            sends := s.sends + 1, effects := s.effects
              ++ [Effect.sendInThread threadTS
                    (progressHeader ++ (s.buf ++ c))] } := by
        simp [chunkStep, hcfg, hbt, hmod, heqe, hsends0, hsend]
      rw [hstep]
      refine ⟨rfl, ?_, ?_, ?_, ?_⟩
      · rw [if_pos h10]
      · rw [hsends0, if_pos h10]
      · rw [countEffects_append, hcr, if_neg hk, if_pos h10]
        simp [countEffects, isCreateEffect]
      · rw [countEffects_append, hup, if_neg hk, if_pos h10, hdiv, hdiv0]
        simp [countEffects, isUpdateEffect]
  · have hmod' : (s.count + 1) % 10 ≠ 0 := by simpa using hmod
    have hdiv : (s.count + 1) / 10 = s.count / 10 := by
      rw [Nat.succ_div, if_neg
        (fun hd => hmod' (Nat.mod_eq_zero_of_dvd hd)), Nat.add_zero]
    have hiff : (10 ≤ s.count + 1) ↔ (10 ≤ s.count) := by
      constructor
      · intro h10
        by_contra hk
        have h9 : s.count + 1 = 10 := by omega
        rw [h9] at hmod'
        exact hmod' rfl
      · omega
    have hstep : chunkStep env threadTS s c =
        { s with buf := s.buf ++ c, count := s.count + 1 } := by
      simp [chunkStep, hmod]
    rw [hstep]
    refine ⟨rfl, ?_, ?_, ?_, ?_⟩
    · simp only [hiff]; exact hmsg
    · simp only [hiff]; exact hsends
    · simp only [hiff]; exact hcr
    · simp only [hiff, hdiv]; exact hup

/-- The streaming invariant holds along the whole fold. -/
theorem runStream_inv (env : ProcEnv) (threadTS ts0 : String)
    (hcfg : env.slackConfigured = true) (hts : threadTS ≠ "")
    (hsend : env.sendSeq 0 = some ts0) (hts0 : ts0 ≠ "") :
    ∀ (cs : List String) (s : StreamState),
      s.msgTS = (if 10 ≤ s.count then ts0 else "") →
      s.sends = (if 10 ≤ s.count then 1 else 0) →
      countEffects isCreateEffect s.effects = (if 10 ≤ s.count then 1 else 0) →
      countEffects isUpdateEffect s.effects
        = s.count / 10 - (if 10 ≤ s.count then 1 else 0) →
      (cs.foldl (chunkStep env threadTS) s).count = s.count + cs.length ∧
      (cs.foldl (chunkStep env threadTS) s).msgTS
        = (if 10 ≤ s.count + cs.length then ts0 else "") ∧
      (cs.foldl (chunkStep env threadTS) s).sends
        = (if 10 ≤ s.count + cs.length then 1 else 0) ∧
      countEffects isCreateEffect (cs.foldl (chunkStep env threadTS) s).effects
        = (if 10 ≤ s.count + cs.length then 1 else 0) ∧
      countEffects isUpdateEffect (cs.foldl (chunkStep env threadTS) s).effects
        = (s.count + cs.length) / 10
          - (if 10 ≤ s.count + cs.length then 1 else 0) := by
  intro cs
  induction cs with
  | nil =>
    intro s h1 h2 h3 h4
    exact ⟨by simp, by simpa using h1, by simpa using h2,
      by simpa using h3, by simpa using h4⟩
  | cons c rest ih =>
    intro s h1 h2 h3 h4
    obtain ⟨k1, k2, k3, k4, k5⟩ :=
      chunkStep_inv env threadTS ts0 hcfg hts hsend hts0 s c h1 h2 h3 h4
    obtain ⟨m1, m2, m3, m4, m5⟩ := ih (chunkStep env threadTS s c)
      (by rw [k1]; exact k2) (by rw [k1]; exact k3)
      (by rw [k1]; exact k4) (by rw [k1]; exact k5)
    rw [k1] at m1 m2 m3 m4 m5
    have harith : s.count + 1 + rest.length = s.count + (rest.length + 1) := by
      omega
    rw [harith] at m1 m2 m3 m4 m5
    simp only [List.foldl_cons, List.length_cons]
    exact ⟨m1, m2, m3, m4, m5⟩

/-- A create-and-update-only trace with no creations and no updates is
empty. -/
theorem effects_nil_of_no_counts (es : List Effect)
    (hshape : ∀ e ∈ es, (isCreateEffect e || isUpdateEffect e) = true)
    (hc : countEffects isCreateEffect es = 0)
    (hu : countEffects isUpdateEffect es = 0) : es = [] := by
  cases es with
  | nil => rfl
  | cons e rest =>
    exfalso
    rcases Bool.or_eq_true _ _ |>.mp (hshape e (by simp)) with h | h
    · have : countEffects isCreateEffect (e :: rest) ≠ 0 := by
        simp [countEffects, List.filter_cons, h]
      exact this hc
    · have : countEffects isUpdateEffect (e :: rest) ≠ 0 := by
        simp [countEffects, List.filter_cons, h]
      exact this hu

/-- Claim C4: with a namespace label, a successful alert post yielding
a thread handle, and all chat calls succeeding, the threaded analysis
message is created exactly at the tenth streamed chunk (no message
before chunk ten), updated in place at every subsequent tenth-chunk
boundary, and finalized with the feedback suffix on completion; with
fewer than ten chunks no streaming message is sent and the message is
created at finalization instead; in either case exactly one pending
entry is registered, keyed by the analysis message timestamp. -/
theorem processAlert_streaming_spec (env : ProcEnv)
    (reg : List (String × PendingFeedback)) (alert : Alert)
    (tThread ts0 : String)
    (hns : lookupDefault alert.labels "namespace" ≠ "")
    (hcfg : env.slackConfigured = true)
    (halert : env.sendAlertRes = some tThread) (htT : tThread ≠ "")
    (hsend : env.sendSeq 0 = some ts0) (hts0 : ts0 ≠ "")
    (hstream : env.streamErr = none) :
    (∀ k, k ≤ env.chunks.length →
      ((env.chunks.take k).foldl (chunkStep env tThread) initStream).msgTS
        = (if 10 ≤ k then ts0 else "") ∧
      countEffects isCreateEffect
        ((env.chunks.take k).foldl (chunkStep env tThread) initStream).effects
        = (if 10 ≤ k then 1 else 0) ∧
      countEffects isUpdateEffect
        ((env.chunks.take k).foldl (chunkStep env tThread) initStream).effects
        = k / 10 - (if 10 ≤ k then 1 else 0)) ∧
    (processAlert env reg alert).registry
      = registryInsert reg ts0
          ⟨alert, procCategory env, (runStream env tThread).buf,
           tThread, ts0, env.now⟩ ∧
    (10 ≤ env.chunks.length →
      (processAlert env reg alert).effects.getLast?
        = some (Effect.updateMessage ts0
            (completeHeader ++ (runStream env tThread).buf ++ feedbackFooter))) ∧
    (env.chunks.length < 10 →
      (runStream env tThread).effects = [] ∧
      (processAlert env reg alert).effects.getLast?
        = some (Effect.sendInThread tThread
            (completeHeader ++ (runStream env tThread).buf ++ feedbackFooter))) := by
  have hthread : procThreadTS env = tThread := by
    simp [procThreadTS, hcfg, halert]
  have hi1 : initStream.msgTS = (if 10 ≤ initStream.count then ts0 else "") := by
    simp [initStream]
  have hi2 : initStream.sends = (if 10 ≤ initStream.count then 1 else 0) := by
    simp [initStream]
  have hi3 : countEffects isCreateEffect initStream.effects
      = (if 10 ≤ initStream.count then 1 else 0) := by
    simp [initStream, countEffects]
  have hi4 : countEffects isUpdateEffect initStream.effects
      = initStream.count / 10 - (if 10 ≤ initStream.count then 1 else 0) := by
    simp [initStream, countEffects]
  have hpre : ∀ k, k ≤ env.chunks.length →
      ((env.chunks.take k).foldl (chunkStep env tThread) initStream).msgTS
        = (if 10 ≤ k then ts0 else "") ∧
      ((env.chunks.take k).foldl (chunkStep env tThread) initStream).sends
        = (if 10 ≤ k then 1 else 0) ∧
      countEffects isCreateEffect
        ((env.chunks.take k).foldl (chunkStep env tThread) initStream).effects
        = (if 10 ≤ k then 1 else 0) ∧
      countEffects isUpdateEffect
        ((env.chunks.take k).foldl (chunkStep env tThread) initStream).effects
        = k / 10 - (if 10 ≤ k then 1 else 0) := by
    intro k hk
    have hlen : (env.chunks.take k).length = k := by
      simp [List.length_take, Nat.min_eq_left hk]
    obtain ⟨m1, m2, m3, m4, m5⟩ := runStream_inv env tThread ts0 hcfg htT
      hsend hts0 (env.chunks.take k) initStream hi1 hi2 hi3 hi4
    rw [hlen] at m2 m3 m4 m5
    have h0 : initStream.count = 0 := rfl
    rw [h0, Nat.zero_add] at m2 m3 m4 m5
    exact ⟨m2, m3, m4, m5⟩
  have hfull : runStream env tThread
      = (env.chunks.take env.chunks.length).foldl (chunkStep env tThread)
          initStream := by
    rw [List.take_length]
    rfl
  obtain ⟨f1, f2, f3, f4⟩ := hpre env.chunks.length (le_refl _)
  rw [← hfull] at f1 f2 f3 f4
  have hbtT : (tThread != "") = true := by simp [htT]
  have hanalysis : procAnalysis env (runStream env tThread)
      = (runStream env tThread).buf := by
    simp [procAnalysis, hstream]
  have hfin : finalizeAlert env reg alert (procCategory env) tThread
      (runStream env tThread) (procAnalysis env (runStream env tThread))
      = (if 10 ≤ env.chunks.length then
          [Effect.updateMessage ts0
            (completeHeader ++ (runStream env tThread).buf ++ feedbackFooter)]
        else
          [Effect.sendInThread tThread
            (completeHeader ++ (runStream env tThread).buf ++ feedbackFooter)],
        registryInsert reg ts0
          ⟨alert, procCategory env, (runStream env tThread).buf,
           tThread, ts0, env.now⟩) := by
    by_cases hn : 10 ≤ env.chunks.length
    · have hmsg : (runStream env tThread).msgTS = ts0 := by
        rw [f1, if_pos hn]
      have hne : ((runStream env tThread).msgTS != "") = true := by
        simp [hmsg, hts0]
      have hts0' : (ts0 != "") = true := by simp [hts0]
      simp [finalizeAlert, hcfg, hbtT, hne, hmsg, hanalysis, hn, hts0']
    · have hmsg : (runStream env tThread).msgTS = "" := by
        rw [f1, if_neg hn]
      have hne : ((runStream env tThread).msgTS != "") = false := by
        simp [hmsg]
      have hsends : (runStream env tThread).sends = 0 := by
        rw [f2, if_neg hn]
      have hts0' : (ts0 != "") = true := by simp [hts0]
      simp [finalizeAlert, hcfg, hbtT, hne, hsends, hsend, hts0',
        hanalysis, hn]
  have hns' : (lookupDefault alert.labels "namespace" == "") = false := by
    simpa using hns
  have hproc : processAlert env reg alert =
      ⟨processAlertPre env alert
        ++ (finalizeAlert env reg alert (procCategory env) tThread
              (runStream env tThread)
              (procAnalysis env (runStream env tThread))).1,
       (finalizeAlert env reg alert (procCategory env) tThread
          (runStream env tThread)
          (procAnalysis env (runStream env tThread))).2⟩ := by
    simp only [processAlert, hns', Bool.false_eq_true, if_false, hthread]
  refine ⟨fun k hk => ⟨(hpre k hk).1, (hpre k hk).2.2.1, (hpre k hk).2.2.2⟩,
    ?_, ?_, ?_⟩
  · rw [hproc, hfin]
  · intro hn
    rw [hproc, hfin, if_pos hn]
    exact List.getLast?_concat _
  · intro hn
    have hnle : ¬ 10 ≤ env.chunks.length := Nat.not_le_of_lt hn
    refine ⟨?_, ?_⟩
    · refine effects_nil_of_no_counts _ ?_ ?_ ?_
      · exact runStream_effects_shape env tThread env.chunks initStream
          (by intro y hy; simp [initStream] at hy)
      · rw [f3, if_neg hnle]
      · rw [f4, if_neg hnle]
        simp [Nat.div_eq_of_lt hn]
    · rw [hproc, hfin, if_neg hnle]
      exact List.getLast?_concat _

/-- Witness for C4: the 25-chunk happy-path scenario — no message
through chunk nine, creation at chunk ten, one update afterwards, a
finalizing update, and exactly one registered pending entry keyed by
the analysis message timestamp. -/
theorem processAlert_streaming_spec_witness :
    (processAlert procEnv25 [] alertProd).registry
      = registryInsert [] "m1"
          ⟨alertProd, procCategory procEnv25, (runStream procEnv25 "t0").buf,
           "t0", "m1", procEnv25.now⟩ ∧
    ((procEnv25.chunks.take 9).foldl (chunkStep procEnv25 "t0") initStream).msgTS
      = "" ∧
    ((procEnv25.chunks.take 10).foldl (chunkStep procEnv25 "t0") initStream).msgTS
      = "m1" ∧
    countEffects isCreateEffect
      ((procEnv25.chunks.take 25).foldl (chunkStep procEnv25 "t0") initStream).effects
      = 1 ∧
    countEffects isUpdateEffect
      ((procEnv25.chunks.take 25).foldl (chunkStep procEnv25 "t0") initStream).effects
      = 1 ∧
    (processAlert procEnv25 [] alertProd).effects.getLast?
      = some (Effect.updateMessage "m1"
          (completeHeader ++ (runStream procEnv25 "t0").buf ++ feedbackFooter)) := by
  have T := processAlert_streaming_spec procEnv25 [] alertProd "t0" "m1"
    (by decide) rfl rfl (by decide) rfl (by decide) rfl
  refine ⟨T.2.1, ?_, ?_, ?_, ?_, T.2.2.1 (by decide)⟩
  · have h := (T.1 9 (by decide)).1
    simpa using h
  · have h := (T.1 10 (by decide)).1
    simpa using h
  · have h := (T.1 25 (by decide)).2.1
    simpa using h
  · have h := (T.1 25 (by decide)).2.2
    simpa using h

end K8flex
